import Mathlib

set_option maxRecDepth 8000

/-!
Verification development for the transcript-sectioning pipeline in `app.py`.

The Python source is shallowly embedded: timed transcript segments become a
`Segment` structure over exact rationals, each pure loop of the source becomes
a structurally recursive Lean function, Python `int(x)` truncation becomes
`pyInt`, and the text-generation collaborator (an external HTTP service) is
modelled by passing its response in as a parameter (`Option String`, where
`none` stands for a call that raised an exception).  Floating-point arithmetic
of the source is modelled by exact rational arithmetic.
-/

/-- One timed transcript segment (`{'text', 'start', 'duration'}` dicts in `app.py`). -/
structure Segment where
  text : String
  start : ℚ
  duration : ℚ
deriving DecidableEq, Repr

/-- Default segment used for out-of-range indexing in the embedding; every
place it is supplied the source indexes in range. -/
def segDflt : Segment := { text := "", start := 0, duration := 0 }

/-- Python `int(x)` on a float: truncation toward zero.  On an exact rational,
`num / den` in truncating integer division. -/
def pyInt (q : ℚ) : ℤ := q.num.tdiv (q.den : ℤ)

/-- Embedding of `transcript_data[-1]['start'] + transcript_data[-1].get('duration', 0)`
(`app.py` line 356): total duration of the video derived from the last segment. -/
def total_duration_of (transcript_data : List Segment) : ℚ :=
  (transcript_data.getLastD segDflt).start + (transcript_data.getLastD segDflt).duration

/-- A section produced by the planner: the dict
`{'timestamp': int, 'title': str | None, 'content': str}` of `app.py`. -/
structure PlanSection where
  timestamp : ℤ
  title : Option String
  content : String
deriving DecidableEq, Repr

/-- Default section used for out-of-range indexing in statements; every place
it is supplied the index is in range. -/
def dfltSec : PlanSection := { timestamp := 0, title := none, content := "" }

/-- The closest-segment scan of `create_logical_sections_fallback`
(`app.py` lines 365-372): running `(closest_idx, min_diff)` state, updated when
a strictly smaller absolute difference is seen, over a list of indices. -/
def closest_scan (g : ℕ → ℚ) : List ℕ → ℕ × ℚ → ℕ × ℚ
  | [], st => st
  | i :: rest, st => closest_scan g rest (if g i < st.2 then (i, g i) else st)

/-- Value of `closest_idx` after the scan loop: initial state `(0, |data[0].start - target|)`,
then one update test per index (`app.py` lines 365-372; the `idx = 0` iteration
is a no-op because `d < d` is false). -/
def closest_idx (transcript_data : List Segment) (target_start : ℚ) : ℕ :=
  (closest_scan (fun j => |(transcript_data.getD j segDflt).start - target_start|)
    (List.range transcript_data.length)
    (0, |(transcript_data.getD 0 segDflt).start - target_start|)).1

/-- The content loop of `create_logical_sections_fallback` (`app.py` lines 376-380):
walk `transcript_data[closest_idx:]`, breaking at the first segment with
`start >= next_start` unless this is the last section, appending `text + " "`. -/
def fallback_section_content (tail : List Segment) (next_start : ℚ) (isLast : Bool) : String :=
  String.join
    ((if isLast then tail else tail.takeWhile (fun s => decide (s.start < next_start))).map
      (fun s => s.text ++ " "))

/-- Embedding of `create_logical_sections_fallback(transcript_data, target_count)`
(`app.py` lines 349-388): even time split with closest-segment anchoring. -/
def create_logical_sections_fallback (transcript_data : List Segment) (target_count : ℕ) :
    List PlanSection :=
  match transcript_data with
  | [] => []
  | s0 :: rest =>
    let data := s0 :: rest
    let total_duration := total_duration_of data
    let seconds_per_section := total_duration / (target_count : ℚ)
    (List.range target_count).map (fun (i : ℕ) =>
      let target_start := (i : ℚ) * seconds_per_section
      let ci := closest_idx data target_start
      let next_start := ((i : ℚ) + 1) * seconds_per_section
      { timestamp := pyInt (data.getD ci segDflt).start
        title := none
        content := fallback_section_content (data.drop ci) next_start
          (decide (¬ i < target_count - 1)) })

/-- Test whether `s` starts with `pat`
(used to embed Python substring search). -/
def listStartsWith : List Char → List Char → Bool
  | [], _ => true
  | _ :: _, [] => false
  | p :: ps, c :: cs => p == c && listStartsWith ps cs

/-- Python `pat in hay` for strings: `pat` occurs as a contiguous substring. -/
def listHasInfix (pat : List Char) : List Char → Bool
  | [] => listStartsWith pat []
  | c :: rest => listStartsWith pat (c :: rest) || listHasInfix pat rest

/-- Python `str.split()` with no argument: split on whitespace runs,
discarding empty pieces. -/
def pyWords (s : String) : List String :=
  (s.split (fun c => c.isWhitespace)).filter (fun w => w ≠ "")

/-- Embedding of `first_sentence = llm_section.get('first_sentence', '').lower().strip()`
(`app.py` line 260). -/
def lower_strip (phrase : String) : String := phrase.toLower.trim

/-- Embedding of `search_words = [w for w in first_sentence.split() if len(w) > 2]`
(`app.py` line 267). -/
def search_words_of (first_sentence : String) : List String :=
  (pyWords first_sentence).filter (fun w => 2 < w.length)

/-- Window text `combined_text`: the window of this segment and the next up-to-3 segments,
lower-cased and joined with spaces (`app.py` lines 272-275). -/
def window_text (transcript_data : List Segment) (i : ℕ) : String :=
  String.intercalate " " (((transcript_data.drop i).take 4).map (fun seg => seg.text.toLower))

/-- The score of one window (`app.py` lines 277-283): fraction of search words
occurring in the window text, overridden to `1.0` on an exact substring hit. -/
def window_score (transcript_data : List Segment) (search_words : List String)
    (first_sentence : String) (i : ℕ) : ℚ :=
  let w := window_text transcript_data i
  let nmatches := (search_words.filter (fun word => listHasInfix word.toList w.toList)).length
  let score : ℚ := (nmatches : ℚ) / (search_words.length : ℚ)
  if listHasInfix first_sentence.toList w.toList then 1 else score

/-- The best-match scan of `app.py` lines 270-287: running
`(best_match_idx, best_score)` state, updated only on a strictly better score. -/
def locate_scan (f : ℕ → ℚ) : List ℕ → ℕ × ℚ → ℕ × ℚ
  | [], st => st
  | i :: rest, st => locate_scan f rest (if st.2 < f i then (i, f i) else st)

/-- The whole text-locate pass of `app.py` lines 260-287 for one phrase:
returns `(best_match_idx, best_score)`; both stay `(0, 0)` when no search
words survive the `len(w) > 2` filter. -/
def locate_best (phrase : String) (transcript_data : List Segment) : ℕ × ℚ :=
  let fs := lower_strip phrase
  let sw := search_words_of fs
  if sw = [] then (0, 0)
  else locate_scan (window_score transcript_data sw fs) (List.range transcript_data.length) (0, 0)

/-- Where a resolved timestamp came from (spec §3 `ResolvedBoundary.source`). -/
inductive BoundarySource where
  | MATCHED
  | FALLBACK
deriving DecidableEq, Repr

/-- Spec §3 `ResolvedBoundary`: timestamp, confidence and provenance of one
resolved boundary proposal. -/
structure ResolvedBoundary where
  timestamp : ℤ
  confidence : ℚ
  source : BoundarySource
deriving DecidableEq, Repr

/-- Resolution step of `app.py` lines 289-296: accept the best match at `best_score >= 0.5`
(timestamp = `int(transcript_data[best_match_idx]['start'])`), otherwise fall
back to the evenly distributed timestamp `int(idx * video_duration / len(llm_sections))`. -/
def resolve_boundary (phrase : String) (transcript_data : List Segment)
    (idx n_sections : ℕ) (video_duration : ℚ) : ResolvedBoundary :=
  let bst := locate_best phrase transcript_data
  if 1/2 ≤ bst.2 then
    { timestamp := pyInt (transcript_data.getD bst.1 segDflt).start
      confidence := bst.2
      source := BoundarySource.MATCHED }
  else
    { timestamp := pyInt ((idx : ℚ) * video_duration / (n_sections : ℚ))
      confidence := bst.2
      source := BoundarySource.FALLBACK }

/-- One pre-content section candidate: the `{'timestamp': ..., 'title': ..., 'content': None}`
dicts collected at `app.py` lines 298-302. -/
structure Candidate where
  timestamp : ℤ
  title : Option String
deriving DecidableEq, Repr

/-- Sort key used by `sorted(sections, key=lambda x: x['timestamp'])`. -/
def candLe (a b : Candidate) : Prop := a.timestamp ≤ b.timestamp

instance : DecidableRel candLe := fun a b => inferInstanceAs (Decidable (a.timestamp ≤ b.timestamp))

instance : IsTotal Candidate candLe := ⟨fun a b => le_total a.timestamp b.timestamp⟩

instance : IsTrans Candidate candLe := ⟨fun _ _ _ h h2 => le_trans h h2⟩

/-- Zero-forcing of `app.py` lines 304-306: `if sections and sections[0]['timestamp'] > 5:
sections[0]['timestamp'] = 0` — note the condition really is `> 5`. -/
def force_first_to_zero : List Candidate → List Candidate
  | [] => []
  | c :: rest => (if 5 < c.timestamp then { c with timestamp := 0 } else c) :: rest

/-- Dedupe loop of `app.py` lines 311-318: drop candidates whose timestamp was already seen,
keeping the first occurrence. -/
def dedupe_first (seen : List ℤ) : List Candidate → List Candidate
  | [] => []
  | c :: rest =>
    if c.timestamp ∈ seen then dedupe_first seen rest
    else c :: dedupe_first (c.timestamp :: seen) rest

/-- The sanitation chain of `app.py` lines 304-318: zero-force the first
candidate (when `> 5`), stable-sort by timestamp, dedupe keeping first.
`insertionSort` with `≤` is stable, like Python's `sorted`. -/
def sanitize_candidates (cands : List Candidate) : List Candidate :=
  dedupe_first [] (List.insertionSort candLe (force_first_to_zero cands))

/-- Content extraction of `app.py` lines 323-332: each section's content is the space-joined text of
the segments whose `start` lies in `[timestamp, next timestamp)`, the last
section ending at `video_duration`. -/
def extract_sections (video_duration : ℚ) (transcript_data : List Segment) :
    List Candidate → List PlanSection
  | [] => []
  | c :: rest =>
    let e : ℚ := match rest with
      | [] => video_duration
      | c2 :: _ => (c2.timestamp : ℚ)
    { timestamp := c.timestamp
      title := c.title
      content := String.intercalate " "
        ((transcript_data.filter
          (fun seg => decide ((c.timestamp : ℚ) ≤ seg.start ∧ seg.start < e))).map
          (fun seg => seg.text)) }
      :: extract_sections video_duration transcript_data rest

/-- Sanitation followed by content extraction: `app.py` lines 304-333. -/
def finalize_sections (cands : List Candidate) (transcript_data : List Segment)
    (video_duration : ℚ) : List PlanSection :=
  extract_sections video_duration transcript_data (sanitize_candidates cands)

/-- Gate of `app.py` lines 335-340: the only quality gate — fall back to
`create_logical_sections_fallback` exactly when fewer than 2 sections remain. -/
def plan_from_candidates (cands : List Candidate) (transcript_data : List Segment)
    (video_duration : ℚ) (target_sections : ℕ) : List PlanSection :=
  let sections := finalize_sections cands transcript_data video_duration
  if sections.length < 2 then create_logical_sections_fallback transcript_data target_sections
  else sections

/-- The exclusive end of section `i`: the next section's timestamp, or
`video_duration` for the last (`app.py` line 325). -/
def section_end_at (sections : List PlanSection) (i : ℕ) (video_duration : ℚ) : ℚ :=
  match sections.get? (i + 1) with
  | some s => (s.timestamp : ℚ)
  | none => video_duration

/-! ### Quiz and question parsing (`generate_quiz_questions`, `generate_section_questions`)

The Python regex searches are embedded as explicit scans over the character
list.  `re.search` semantics: try every start position left to right, and at a
fixed start a lazy `(.+?)` with a lookahead stops at the earliest position
where the lookahead matches (at least one character captured).  All captures
are `.strip()`-ed by the source before use, which makes the `\s*`/`(.+?)`
boundary irrelevant after trimming. -/

/-- First index `k ≥ start` (searching `fuel` positions) where `look k` holds. -/
def firstIdxFrom (look : ℕ → Bool) : ℕ → ℕ → Option ℕ
  | 0, _ => none
  | fuel + 1, k => if look k then some k else firstIdxFrom look fuel (k + 1)

/-- Embedding of `re.search(pat + r'\s*(.+?)(?=LOOK)', cs, re.DOTALL)`, returning the
trimmed capture: leftmost occurrence of `pat` followed (at distance ≥ 1 past
the pattern) by a position where the lookahead holds. -/
def reSearchFrom (cs pat : List Char) (look : ℕ → Bool) : ℕ → ℕ → Option String
  | 0, _ => none
  | fuel + 1, i =>
    if listStartsWith pat (cs.drop i) then
      match firstIdxFrom look (cs.length + 1) (i + pat.length + 1) with
      | some k => some (String.mk ((cs.drop (i + pat.length)).take (k - (i + pat.length)))).trim
      | none => reSearchFrom cs pat look fuel (i + 1)
    else reSearchFrom cs pat look fuel (i + 1)

/-- The lookahead `(?=\n[A-D]\))` of the question/option regexes. -/
def lookNextOpt (cs : List Char) (k : ℕ) : Bool :=
  match cs.drop k with
  | '\n' :: c :: ')' :: _ => c == 'A' || c == 'B' || c == 'C' || c == 'D'
  | _ => false

/-- Python `$` (no `re.MULTILINE`): matches at the end of the string, or just
before a trailing newline. -/
def pyDollar (cs : List Char) (k : ℕ) : Bool :=
  k == cs.length || (k + 1 == cs.length && (cs.getD k ' ') == '\n')

/-- The lookahead `(?=\n[A-D]\)|CORRECT:|$)` of the option regex. -/
def lookOptEnd (cs : List Char) (k : ℕ) : Bool :=
  lookNextOpt cs k || listStartsWith "CORRECT:".toList (cs.drop k) || pyDollar cs k

/-- Embedding of `re.search(r'Q:\s*(.+?)(?=\n[A-D]\))', block, re.DOTALL)`, trimmed
(`app.py` lines 578-582). -/
def q_of_block (cs : List Char) : Option String :=
  reSearchFrom cs "Q:".toList (lookNextOpt cs) (cs.length + 1) 0

/-- Embedding of `re.search(rf'{letter}\)\s*(.+?)(?=\n[A-D]\)|CORRECT:|$)', block, re.DOTALL)`,
trimmed (`app.py` lines 585-588). -/
def option_of_block (cs : List Char) (letter : Char) : Option String :=
  reSearchFrom cs [letter, ')'] (lookOptEnd cs) (cs.length + 1) 0

/-- Case-insensitive `listStartsWith`. -/
def ciStartsWith (pat s : List Char) : Bool :=
  listStartsWith (pat.map Char.toLower) (s.map Char.toLower)

/-- Embedding of `re.search(r'CORRECT:\s*([A-D])', block, re.IGNORECASE)` with the captured
letter upper-cased (`app.py` lines 590-591): after a case-insensitive
`CORRECT:`, the first non-whitespace character must be a letter `A`-`D`
(in either case) for the match to succeed at this start position. -/
def correct_scan (cs : List Char) : ℕ → ℕ → Option Char
  | 0, _ => none
  | fuel + 1, i =>
    if ciStartsWith "CORRECT:".toList (cs.drop i) then
      match (cs.drop (i + 8)).dropWhile Char.isWhitespace with
      | c :: _ =>
        if c.toUpper == 'A' || c.toUpper == 'B' || c.toUpper == 'C' || c.toUpper == 'D' then
          some c.toUpper
        else correct_scan cs fuel (i + 1)
      | [] => correct_scan cs fuel (i + 1)
    else correct_scan cs fuel (i + 1)

/-- Embedding of `re.search(r'EXPLANATION:\s*(.+?)(?=$)', block, re.DOTALL | re.IGNORECASE)`,
trimmed (`app.py` lines 593-594): everything after the first case-insensitive
`EXPLANATION:` (which must be nonempty), stripped. -/
def explanation_scan (cs : List Char) : ℕ → ℕ → Option String
  | 0, _ => none
  | fuel + 1, i =>
    if ciStartsWith "EXPLANATION:".toList (cs.drop i) then
      match cs.drop (i + 12) with
      | [] => explanation_scan cs fuel (i + 1)
      | c :: rest => some (String.mk (c :: rest)).trim
    else explanation_scan cs fuel (i + 1)

/-- One parsed multiple-choice item (spec §3 `QuizItem`); `options` is the
assoc list of found lettered options in `A`-`D` order. -/
structure QuizItem where
  question : String
  options : List (Char × String)
  correct : Char
  explanation : String
deriving DecidableEq, Repr

/-- Parsing of one `---`-delimited block (`app.py` lines 578-602): the block is
accepted only when a question was recovered, it is nonempty, and exactly 4
lettered options were recovered (`if len(options) == 4 and question`). -/
def parse_quiz_block (block : String) : Option QuizItem :=
  let cs := block.toList
  match q_of_block cs with
  | none => none
  | some q =>
    let opts := ['A', 'B', 'C', 'D'].filterMap
      (fun letter => (option_of_block cs letter).map (fun v => (letter, v)))
    if opts.length == 4 && q != "" then
      some { question := q
             options := opts
             correct := (correct_scan cs (cs.length + 1) 0).getD 'A'
             explanation :=
               (explanation_scan cs (cs.length + 1) 0).getD "This is the correct answer." }
    else none

/-- Python `s.split(sep)` for a nonempty separator (worker on char lists). -/
def splitOnSepGo (sep : List Char) : ℕ → List Char → List Char → List (List Char)
  | 0, acc, _ => [acc.reverse]
  | fuel + 1, acc, rest =>
    if listStartsWith sep rest then
      acc.reverse :: splitOnSepGo sep fuel [] (rest.drop sep.length)
    else
      match rest with
      | [] => [acc.reverse]
      | c :: rest2 => splitOnSepGo sep fuel (c :: acc) rest2

/-- Python `s.split(sep)` for a nonempty separator. -/
def pySplit (s sep : String) : List String :=
  (splitOnSepGo sep.toList (s.length + 1) [] s.toList).map String.mk

/-- The section-specific fallback quiz item (`app.py` lines 608-613). -/
def quiz_placeholder (section_title : String) : QuizItem :=
  { question := "What is discussed in " ++ section_title ++ "?"
    options := [('A', section_title), ('B', "Other topic"), ('C', "Different concept"),
                ('D', "Unrelated")]
    correct := 'A'
    explanation := "This section focuses on " ++ section_title ++ "." }

/-- The quiz item returned when the collaborator call raised
(`app.py` lines 617-622). -/
def quiz_exception_placeholder : QuizItem :=
  { question := "What is the key concept?"
    options := [('A', "Concept A"), ('B', "Concept B"), ('C', "Concept C"), ('D', "Concept D")]
    correct := 'C'
    explanation := "Based on content." }

/-- Embedding of `generate_quiz_questions` (`app.py` lines 556-622).  The collaborator
response is a parameter: `none` models the `client.chat...` call raising. -/
def generate_quiz_questions (response : Option String) (section_title : String) : List QuizItem :=
  match response with
  | none => List.replicate 3 quiz_exception_placeholder
  | some raw =>
    let quiz_text := raw.trim
    let quiz_questions := (pySplit quiz_text "---").filterMap (fun b =>
      let b := b.trim
      if b = "" then none else parse_quiz_block b)
    if 3 ≤ quiz_questions.length then quiz_questions.take 3
    else List.replicate 3 (quiz_placeholder section_title)

/-- A sample collaborator response with two well-formed question blocks and
one malformed block (its `D)` option is missing). -/
def quiz_response_two_valid : String :=
  "Q: Ask one?\nA) a1\nB) b1\nC) c1\nD) d1\nCORRECT: A\nEXPLANATION: e1\n---\n" ++
  "Q: Ask two?\nA) a2\nB) b2\nC) c2\nD) d2\nCORRECT: C\nEXPLANATION: e2\n---\n" ++
  "Q: Ask three?\nA) a3\nB) b3\nC) c3\nCORRECT: B\nEXPLANATION: e3"

/-- Embedding of `re.sub(r'^\d+[\.)]\s*', '', line)` (`app.py` line 492): drop a leading
enumeration marker — a maximal digit run followed by `.` or `)` and whitespace. -/
def strip_enum (line : String) : String :=
  let cs := line.toList
  let ds := cs.takeWhile Char.isDigit
  if ds.isEmpty then line
  else
    match cs.drop ds.length with
    | c :: rest2 =>
      if c == '.' || c == ')' then String.mk (rest2.dropWhile Char.isWhitespace) else line
    | [] => line

/-- Embedding of `line.strip('"\'')` (`app.py` line 493). -/
def strip_quote_chars (s : String) : String :=
  let p := fun (c : Char) => c == '"' || c == '\''
  String.mk ((s.toList.dropWhile p).reverse.dropWhile p).reverse

/-- The in-parser filler questions (`app.py` lines 498-502). -/
def question_fallbacks : List String :=
  ["Why does this work the way it does?",
   "How does this concept connect to the bigger picture?",
   "What's the key difference between the approaches mentioned?"]

/-- The questions returned when the collaborator call raised
(`app.py` lines 510-514). -/
def question_exception_fallbacks : List String :=
  ["Can you explain the reasoning behind this?",
   "What's the fundamental difference here?",
   "Why is this approach used instead of alternatives?"]

/-- The `while len(questions) < 3` padding loop (`app.py` lines 503-504);
three iterations always suffice. -/
def pad_questions : ℕ → List String → List String
  | 0, qs => qs
  | fuel + 1, qs =>
    if qs.length < 3 then pad_questions fuel (qs ++ [question_fallbacks.getD qs.length ""])
    else qs

/-- Embedding of `generate_section_questions` (`app.py` lines 446-514), collaborator
response as a parameter (`none` = the call raised). -/
def generate_section_questions (response : Option String) : List String :=
  match response with
  | none => question_exception_fallbacks
  | some raw =>
    let questions := (pySplit raw.trim "\n").filterMap (fun line =>
      let l := strip_quote_chars (strip_enum line.trim)
      if l ≠ "" ∧ 10 < l.length then some l else none)
    (pad_questions 3 questions).take 3

/-- The error placeholder div of `generate_section_html`
(`app.py` line 771). -/
def section_error_html (section_index : ℕ) : String :=
  "<div class=\"video-section error\" data-section-id=\"" ++ toString section_index ++
    "\"><p>Failed to load section</p></div>"

/-- The try/except shell of `generate_section_html` (`app.py` lines 677-771):
a successful body yields its html, any exception yields the error placeholder
for that section index. -/
def generate_section_html_result (body : Option String) (section_index : ℕ) : String :=
  match body with
  | some html => html
  | none => section_error_html section_index

/-! ### The progressive stream (`generate_stream`, `app.py` lines 1172-1246)

Each `yield` of the generator's exception-free path becomes one `StreamEvent`;
the I/O collaborators are parameters (`loading_msgs` for
`generate_loading_messages`, `section_html` for `generate_section_html`).
Progress percentages are computed in exact rational arithmetic. -/

/-- One server-sent event of the progressive mode. -/
inductive StreamEvent where
  | progress (stage message : String) (pct : ℤ) (currentSection totalSections : Option ℕ)
  | loading_messages (messages : List String)
  | result (summary : String) (total_sections : ℕ)
  | error (message : String)
deriving DecidableEq, Repr

/-- Constant `FULL_QUIZ_SECTIONS = 4` (`app.py` line 1207). -/
def FULL_QUIZ_SECTIONS : ℕ := 4

/-- Embedding of `sections_data[i].get('title', f'Section {i + 1}')` (`app.py` line 1210). -/
def title_of (sections_data : List PlanSection) (i : ℕ) : String :=
  match (sections_data.getD i { timestamp := 0, title := none, content := "" }).title with
  | some t => t
  | none => "Section " ++ toString (i + 1)

/-- The five progress yields and the loading-messages yield emitted before the
per-section loop (`app.py` lines 1175-1204). -/
def stream_prefix_events (transcript_data : List Segment) (total : ℕ)
    (loading_msgs : List String) : List StreamEvent :=
  [StreamEvent.progress "init" "Starting..." 0 none none,
   StreamEvent.progress "transcript" "Fetching transcript..." 5 none none,
   StreamEvent.progress "transcript"
     ("Transcript loaded (" ++ toString transcript_data.length ++ " segments)") 15 none none,
   StreamEvent.progress "sections" "Analyzing content structure..." 20 none none,
   StreamEvent.progress "sections" ("Found " ++ toString total ++ " sections") 25 none (some total),
   StreamEvent.loading_messages loading_msgs]

/-- The per-section progress yield of the generation loop
(`app.py` lines 1209-1214): section `i` is announced as `currentSection = i + 1`. -/
def stream_generating_event (sections_data : List PlanSection) (total i : ℕ) : StreamEvent :=
  StreamEvent.progress "generating"
    ("Section " ++ toString (i + 1) ++ "/" ++ toString total ++ ": " ++ title_of sections_data i)
    (30 + pyInt ((i : ℚ) / (total : ℚ) * 65)) (some (i + 1)) (some total)

/-- The final completion yield and the result yield (`app.py` lines 1219-1242);
the assembled summary is the concatenation of the per-section html, generated
with quiz enabled exactly for the indices below `FULL_QUIZ_SECTIONS`. -/
def stream_final_events (section_html : ℕ → Bool → String) (total : ℕ) : List StreamEvent :=
  [StreamEvent.progress "complete" "Complete!" 100 none none,
   StreamEvent.result
     (String.join ((List.range total).map
       (fun i => section_html i (decide (i < FULL_QUIZ_SECTIONS)))))
     total]

/-- The event sequence emitted by one exception-free run of `generate_stream`
(`app.py` lines 1172-1242). -/
def generate_stream_events (transcript_data : List Segment) (sections_data : List PlanSection)
    (loading_msgs : List String) (section_html : ℕ → Bool → String) : List StreamEvent :=
  stream_prefix_events transcript_data sections_data.length loading_msgs
    ++ (List.range sections_data.length).map
        (stream_generating_event sections_data sections_data.length)
    ++ stream_final_events section_html sections_data.length

/-- The successive values of the `currentSection` field across a stream, in
emission order. -/
def current_section_trace (events : List StreamEvent) : List ℕ :=
  events.filterMap (fun e =>
    match e with
    | StreamEvent.progress _ _ _ c _ => c
    | _ => none)

/-! ## Lemmas about the best-match scan -/

theorem locate_scan_append (f : ℕ → ℚ) (l₁ l₂ : List ℕ) (st : ℕ × ℚ) :
    locate_scan f (l₁ ++ l₂) st = locate_scan f l₂ (locate_scan f l₁ st) := by
  induction l₁ generalizing st with
  | nil => rfl
  | cons i rest ih =>
    simp only [List.cons_append, locate_scan]
    exact ih _

theorem locate_scan_range_inv (f : ℕ → ℚ) (n : ℕ) :
    (locate_scan f (List.range n) (0, 0) = ((0 : ℕ), (0 : ℚ)) ∧ ∀ j < n, f j ≤ 0) ∨
    ((locate_scan f (List.range n) (0, 0)).1 < n ∧
      f (locate_scan f (List.range n) (0, 0)).1 = (locate_scan f (List.range n) (0, 0)).2 ∧
      0 < (locate_scan f (List.range n) (0, 0)).2 ∧
      (∀ j < n, f j ≤ (locate_scan f (List.range n) (0, 0)).2) ∧
      (∀ j < (locate_scan f (List.range n) (0, 0)).1,
        f j < (locate_scan f (List.range n) (0, 0)).2)) := by
  induction n with
  | zero => exact Or.inl ⟨rfl, fun j hj => absurd hj (Nat.not_lt_zero j)⟩
  | succ n ih =>
    rw [List.range_succ, locate_scan_append]
    have hstep : ∀ st : ℕ × ℚ, locate_scan f [n] st = if st.2 < f n then (n, f n) else st :=
      fun st => rfl
    rw [hstep]
    rcases ih with ⟨heq, hb⟩ | ⟨h1, h2, h3, h4, h5⟩
    · rw [heq]
      by_cases hlt : ((0 : ℕ), (0 : ℚ)).2 < f n
      · rw [if_pos hlt]
        refine Or.inr ⟨Nat.lt_succ_self n, rfl, hlt, ?_, ?_⟩
        · intro j hj
          rcases Nat.lt_succ_iff_lt_or_eq.mp hj with hj' | hj'
          · exact (hb j hj').trans (le_of_lt hlt)
          · exact le_of_eq (by rw [hj'])
        · intro j hj
          exact (hb j hj).trans_lt hlt
      · rw [if_neg hlt]
        refine Or.inl ⟨rfl, ?_⟩
        intro j hj
        rcases Nat.lt_succ_iff_lt_or_eq.mp hj with hj' | hj'
        · exact hb j hj'
        · rw [hj']; exact le_of_not_lt hlt
    · by_cases hlt : (locate_scan f (List.range n) (0, 0)).2 < f n
      · rw [if_pos hlt]
        refine Or.inr ⟨Nat.lt_succ_self n, rfl, h3.trans hlt, ?_, ?_⟩
        · intro j hj
          rcases Nat.lt_succ_iff_lt_or_eq.mp hj with hj' | hj'
          · exact (h4 j hj').trans (le_of_lt hlt)
          · exact le_of_eq (by rw [hj'])
        · intro j hj
          have hj' : j < n := hj
          exact (h4 j hj').trans_lt hlt
      · rw [if_neg hlt]
        refine Or.inr ⟨Nat.lt_succ_of_lt h1, h2, h3, ?_, h5⟩
        intro j hj
        rcases Nat.lt_succ_iff_lt_or_eq.mp hj with hj' | hj'
        · exact h4 j hj'
        · rw [hj']; exact le_of_not_lt hlt

theorem locate_scan_range_spec (f : ℕ → ℚ) (hf : ∀ j, 0 ≤ f j) (n : ℕ) (hn : 0 < n) :
    (locate_scan f (List.range n) (0, 0)).1 < n ∧
    f (locate_scan f (List.range n) (0, 0)).1 = (locate_scan f (List.range n) (0, 0)).2 ∧
    (∀ j < n, f j ≤ (locate_scan f (List.range n) (0, 0)).2) ∧
    (∀ j < (locate_scan f (List.range n) (0, 0)).1,
      f j < (locate_scan f (List.range n) (0, 0)).2) := by
  rcases locate_scan_range_inv f n with ⟨heq, hb⟩ | ⟨h1, h2, h3, h4, h5⟩
  · rw [heq]
    refine ⟨hn, le_antisymm (hb 0 hn) (hf 0), ?_, ?_⟩
    · intro j hj; exact hb j hj
    · intro j hj; exact absurd hj (Nat.not_lt_zero j)
  · exact ⟨h1, h2, h4, h5⟩

/-! ## Lemmas about the closest-segment scan -/

theorem closest_scan_append (g : ℕ → ℚ) (l₁ l₂ : List ℕ) (st : ℕ × ℚ) :
    closest_scan g (l₁ ++ l₂) st = closest_scan g l₂ (closest_scan g l₁ st) := by
  induction l₁ generalizing st with
  | nil => rfl
  | cons i rest ih =>
    simp only [List.cons_append, closest_scan]
    exact ih _

theorem closest_scan_range_inv (g : ℕ → ℚ) (n : ℕ) :
    (closest_scan g (List.range n) (0, g 0) = ((0 : ℕ), g 0) ∧ ∀ j < n, g 0 ≤ g j) ∨
    ((closest_scan g (List.range n) (0, g 0)).1 < n ∧
      g (closest_scan g (List.range n) (0, g 0)).1 = (closest_scan g (List.range n) (0, g 0)).2 ∧
      (∀ j < n, (closest_scan g (List.range n) (0, g 0)).2 ≤ g j) ∧
      (∀ j < (closest_scan g (List.range n) (0, g 0)).1,
        (closest_scan g (List.range n) (0, g 0)).2 < g j)) := by
  induction n with
  | zero => exact Or.inl ⟨rfl, fun j hj => absurd hj (Nat.not_lt_zero j)⟩
  | succ n ih =>
    rw [List.range_succ, closest_scan_append]
    have hstep : ∀ st : ℕ × ℚ, closest_scan g [n] st = if g n < st.2 then (n, g n) else st :=
      fun st => rfl
    rw [hstep]
    rcases ih with ⟨heq, hb⟩ | ⟨h1, h2, h3, h4⟩
    · rw [heq]
      by_cases hlt : g n < ((0 : ℕ), g 0).2
      · rw [if_pos hlt]
        refine Or.inr ⟨Nat.lt_succ_self n, rfl, ?_, ?_⟩
        · intro j hj
          rcases Nat.lt_succ_iff_lt_or_eq.mp hj with hj' | hj'
          · exact le_of_lt (hlt.trans_le (hb j hj'))
          · exact le_of_eq (by rw [hj'])
        · intro j hj
          exact hlt.trans_le (hb j hj)
      · rw [if_neg hlt]
        refine Or.inl ⟨rfl, ?_⟩
        intro j hj
        rcases Nat.lt_succ_iff_lt_or_eq.mp hj with hj' | hj'
        · exact hb j hj'
        · rw [hj']; exact le_of_not_lt hlt
    · by_cases hlt : g n < (closest_scan g (List.range n) (0, g 0)).2
      · rw [if_pos hlt]
        refine Or.inr ⟨Nat.lt_succ_self n, rfl, ?_, ?_⟩
        · intro j hj
          rcases Nat.lt_succ_iff_lt_or_eq.mp hj with hj' | hj'
          · exact le_of_lt (hlt.trans_le (h3 j hj'))
          · exact le_of_eq (by rw [hj'])
        · intro j hj
          have hj' : j < n := hj
          exact hlt.trans_le (h3 j hj')
      · rw [if_neg hlt]
        refine Or.inr ⟨Nat.lt_succ_of_lt h1, h2, ?_, h4⟩
        intro j hj
        rcases Nat.lt_succ_iff_lt_or_eq.mp hj with hj' | hj'
        · exact h3 j hj'
        · rw [hj']; exact le_of_not_lt hlt

theorem closest_scan_range_spec (g : ℕ → ℚ) (n : ℕ) (hn : 0 < n) :
    (closest_scan g (List.range n) (0, g 0)).1 < n ∧
    g (closest_scan g (List.range n) (0, g 0)).1 = (closest_scan g (List.range n) (0, g 0)).2 ∧
    (∀ j < n, (closest_scan g (List.range n) (0, g 0)).2 ≤ g j) ∧
    (∀ j < (closest_scan g (List.range n) (0, g 0)).1,
      (closest_scan g (List.range n) (0, g 0)).2 < g j) := by
  rcases closest_scan_range_inv g n with ⟨heq, hb⟩ | ⟨h1, h2, h3, h4⟩
  · rw [heq]
    exact ⟨hn, rfl, fun j hj => hb j hj, fun j hj => absurd hj (Nat.not_lt_zero j)⟩
  · exact ⟨h1, h2, h3, h4⟩

/-! ## Window-score bounds -/

theorem window_score_nonneg (transcript_data : List Segment) (search_words : List String)
    (first_sentence : String) (i : ℕ) :
    0 ≤ window_score transcript_data search_words first_sentence i := by
  simp only [window_score]
  split
  · exact zero_le_one
  · positivity

theorem window_score_le_one (transcript_data : List Segment) (search_words : List String)
    (first_sentence : String) (i : ℕ) :
    window_score transcript_data search_words first_sentence i ≤ 1 := by
  simp only [window_score]
  split
  · exact le_refl 1
  · rcases Nat.eq_zero_or_pos search_words.length with hz | hp
    · have hf : (search_words.filter
          (fun word => listHasInfix word.toList (window_text transcript_data i).toList)).length = 0 :=
        Nat.le_zero.mp (hz ▸ List.length_filter_le _ _)
      rw [hf, hz]
      norm_num
    · rw [div_le_one (by exact_mod_cast hp : (0 : ℚ) < (search_words.length : ℚ))]
      exact_mod_cast List.length_filter_le _ _

theorem locate_best_eq_scan (phrase : String) (transcript_data : List Segment)
    (hsw : search_words_of (lower_strip phrase) ≠ []) :
    locate_best phrase transcript_data =
      locate_scan
        (window_score transcript_data (search_words_of (lower_strip phrase)) (lower_strip phrase))
        (List.range transcript_data.length) (0, 0) := by
  show (if search_words_of (lower_strip phrase) = [] then ((0 : ℕ), (0 : ℚ))
      else locate_scan
        (window_score transcript_data (search_words_of (lower_strip phrase)) (lower_strip phrase))
        (List.range transcript_data.length) (0, 0)) = _
  rw [if_neg hsw]

/-- C5: for every phrase that retains at least one search word (lower-cased
token of length > 2) and every non-empty segment list, the locate loop keeps
the earliest segment index achieving the maximum window score (a later window
must strictly improve the score to replace the kept index), and when the
maximum score meets the `0.5` acceptance threshold the resolved boundary is
`MATCHED` with timestamp `int(transcript_data[best_match_idx]['start'])` and
confidence equal to that maximum score. -/
theorem locate_best_keeps_earliest_best (phrase : String) (transcript_data : List Segment)
    (hsw : search_words_of (lower_strip phrase) ≠ []) (hd : transcript_data ≠ []) :
    (locate_best phrase transcript_data).1 < transcript_data.length ∧
    window_score transcript_data (search_words_of (lower_strip phrase)) (lower_strip phrase)
      (locate_best phrase transcript_data).1 = (locate_best phrase transcript_data).2 ∧
    (∀ j < transcript_data.length,
      window_score transcript_data (search_words_of (lower_strip phrase)) (lower_strip phrase) j ≤
        (locate_best phrase transcript_data).2) ∧
    (∀ j < (locate_best phrase transcript_data).1,
      window_score transcript_data (search_words_of (lower_strip phrase)) (lower_strip phrase) j <
        (locate_best phrase transcript_data).2) ∧
    (∀ (idx n_sections : ℕ) (video_duration : ℚ),
      1/2 ≤ (locate_best phrase transcript_data).2 →
      resolve_boundary phrase transcript_data idx n_sections video_duration =
        { timestamp :=
            pyInt ((transcript_data.getD (locate_best phrase transcript_data).1 segDflt).start)
          confidence := (locate_best phrase transcript_data).2
          source := BoundarySource.MATCHED }) := by
  have heq := locate_best_eq_scan phrase transcript_data hsw
  have hn : 0 < transcript_data.length := List.length_pos.mpr hd
  have hspec := locate_scan_range_spec
    (window_score transcript_data (search_words_of (lower_strip phrase)) (lower_strip phrase))
    (fun j => window_score_nonneg transcript_data _ _ j) transcript_data.length hn
  rw [← heq] at hspec
  refine ⟨hspec.1, hspec.2.1, hspec.2.2.1, hspec.2.2.2, ?_⟩
  intro idx n_sections video_duration hhalf
  show (if (1 : ℚ)/2 ≤ (locate_best phrase transcript_data).2 then
      ({ timestamp :=
           pyInt ((transcript_data.getD (locate_best phrase transcript_data).1 segDflt).start)
         confidence := (locate_best phrase transcript_data).2
         source := BoundarySource.MATCHED } : ResolvedBoundary)
    else
      { timestamp := pyInt ((idx : ℚ) * video_duration / (n_sections : ℚ))
        confidence := (locate_best phrase transcript_data).2
        source := BoundarySource.FALLBACK }) = _
  rw [if_pos hhalf]

/-- Witness for C5 at a concrete phrase spanning two segments. -/
theorem locate_best_keeps_earliest_best_witness :
    search_words_of (lower_strip "the core idea here") ≠ [] ∧
    ([⟨"we explain The core", 0, 2⟩, ⟨"idea here now", 2, 2⟩] : List Segment) ≠ [] ∧
    resolve_boundary "the core idea here"
      [⟨"we explain The core", 0, 2⟩, ⟨"idea here now", 2, 2⟩] 0 2 10 =
      { timestamp := 0, confidence := 1, source := BoundarySource.MATCHED } := by
  refine ⟨by with_unfolding_all decide, by with_unfolding_all decide, ?_⟩
  have h := locate_best_keeps_earliest_best "the core idea here"
    [⟨"we explain The core", 0, 2⟩, ⟨"idea here now", 2, 2⟩]
    (by with_unfolding_all decide) (by with_unfolding_all decide)
  have h2 := h.2.2.2.2 0 2 10 (by with_unfolding_all decide)
  exact h2.trans (by with_unfolding_all decide)

/-- C4 (amended): if additionally at least one search word survives the
stop-word suppression, an exact lower-cased substring occurrence of the phrase
in some scan window forces `source = MATCHED` with confidence `≥ 0.95`
(indeed exactly 1). -/
theorem exact_substring_forces_matched (phrase : String) (transcript_data : List Segment)
    (i idx n_sections : ℕ) (video_duration : ℚ)
    (hsw : search_words_of (lower_strip phrase) ≠ [])
    (hi : i < transcript_data.length)
    (hinf : listHasInfix (lower_strip phrase).toList (window_text transcript_data i).toList = true) :
    (resolve_boundary phrase transcript_data idx n_sections video_duration).source =
      BoundarySource.MATCHED ∧
    (95/100 : ℚ) ≤
      (resolve_boundary phrase transcript_data idx n_sections video_duration).confidence := by
  have hd : transcript_data ≠ [] := by
    intro h
    rw [h] at hi
    exact absurd hi (Nat.not_lt_zero i)
  have h := locate_best_keeps_earliest_best phrase transcript_data hsw hd
  have hscore_i :
      window_score transcript_data (search_words_of (lower_strip phrase)) (lower_strip phrase) i
        = 1 := by
    simp only [window_score]
    rw [if_pos hinf]
  have hone : (1 : ℚ) ≤ (locate_best phrase transcript_data).2 := by
    have := h.2.2.1 i hi
    rw [hscore_i] at this
    exact this
  have hres := h.2.2.2.2 idx n_sections video_duration (le_trans (by norm_num) hone)
  rw [hres]
  exact ⟨rfl, le_trans (by norm_num) hone⟩

/-- Witness for C4's amended theorem at a concrete matching phrase. -/
theorem exact_substring_forces_matched_witness :
    search_words_of (lower_strip "the core idea here") ≠ [] ∧
    (0 : ℕ) < 2 ∧
    listHasInfix (lower_strip "the core idea here").toList
      (window_text [⟨"we explain The core", 0, 2⟩, ⟨"idea here now", 2, 2⟩] 0).toList = true ∧
    ((resolve_boundary "the core idea here"
        [⟨"we explain The core", 0, 2⟩, ⟨"idea here now", 2, 2⟩] 0 2 10).source =
      BoundarySource.MATCHED ∧
    (95/100 : ℚ) ≤
      (resolve_boundary "the core idea here"
        [⟨"we explain The core", 0, 2⟩, ⟨"idea here now", 2, 2⟩] 0 2 10).confidence) :=
  ⟨by with_unfolding_all decide, by decide, by with_unfolding_all decide,
    exact_substring_forces_matched "the core idea here"
      [⟨"we explain The core", 0, 2⟩, ⟨"idea here now", 2, 2⟩] 0 0 2 10
      (by with_unfolding_all decide) (by decide) (by with_unfolding_all decide)⟩

/-- C4 counterexample: for the phrase `"go on"` — an exact substring of the
single segment's text, but with every token of length ≤ 2 — the locator
reports the fallback source with confidence 0, refuting the claim as stated
(which quantifies over every phrase). -/
theorem exact_substring_claim_counterexample :
    listHasInfix (lower_strip "go on").toList (window_text [⟨"go on", 0, 1⟩] 0).toList = true ∧
    (resolve_boundary "go on" [⟨"go on", 0, 1⟩] 0 2 10).source = BoundarySource.FALLBACK ∧
    (resolve_boundary "go on" [⟨"go on", 0, 1⟩] 0 2 10).confidence < 95/100 := by
  refine ⟨by with_unfolding_all decide, by with_unfolding_all decide, ?_⟩
  with_unfolding_all decide

/-! ## Lemmas about sanitation (zero-force, sort, dedupe) -/

theorem dedupe_first_sublist (seen : List ℤ) (l : List Candidate) :
    List.Sublist (dedupe_first seen l) l := by
  induction l generalizing seen with
  | nil => exact List.Sublist.refl _
  | cons a rest ih =>
    by_cases hs : a.timestamp ∈ seen
    · simp only [dedupe_first, if_pos hs]
      exact (ih seen).cons a
    · simp only [dedupe_first, if_neg hs]
      exact (ih _).cons₂ a

theorem dedupe_first_not_seen (seen : List ℤ) (l : List Candidate) :
    ∀ c ∈ dedupe_first seen l, c.timestamp ∉ seen := by
  induction l generalizing seen with
  | nil => intro c hc; simp [dedupe_first] at hc
  | cons a rest ih =>
    intro c hc
    by_cases hs : a.timestamp ∈ seen
    · rw [dedupe_first, if_pos hs] at hc
      exact ih seen c hc
    · rw [dedupe_first, if_neg hs] at hc
      rcases List.mem_cons.mp hc with rfl | hmem
      · exact hs
      · intro hcs
        exact ih (a.timestamp :: seen) c hmem (List.mem_cons_of_mem _ hcs)

theorem dedupe_first_pairwise_ne (seen : List ℤ) (l : List Candidate) :
    (dedupe_first seen l).Pairwise (fun a b => a.timestamp ≠ b.timestamp) := by
  induction l generalizing seen with
  | nil => simp [dedupe_first]
  | cons a rest ih =>
    by_cases hs : a.timestamp ∈ seen
    · rw [dedupe_first, if_pos hs]
      exact ih seen
    · rw [dedupe_first, if_neg hs]
      refine List.Pairwise.cons ?_ (ih _)
      intro b hb heq
      exact dedupe_first_not_seen (a.timestamp :: seen) rest b hb
        (heq ▸ List.mem_cons_self _ _)

theorem dedupe_first_mem_ts (seen : List ℤ) (l : List Candidate) (z : ℤ)
    (hz : z ∉ seen) (hex : ∃ c ∈ l, c.timestamp = z) :
    ∃ c ∈ dedupe_first seen l, c.timestamp = z := by
  induction l generalizing seen with
  | nil => simp at hex
  | cons a rest ih =>
    by_cases hs : a.timestamp ∈ seen
    · rw [dedupe_first, if_pos hs]
      apply ih seen hz
      rcases hex with ⟨c, hc, hct⟩
      rcases List.mem_cons.mp hc with rfl | hmem
      · exact absurd (hct ▸ hs) hz
      · exact ⟨c, hmem, hct⟩
    · rw [dedupe_first, if_neg hs]
      rcases hex with ⟨c, hc, hct⟩
      rcases List.mem_cons.mp hc with rfl | hmem
      · exact ⟨c, List.mem_cons_self _ _, hct⟩
      · by_cases hza : z = a.timestamp
        · exact ⟨a, List.mem_cons_self _ _, hza.symm⟩
        · have hz2 : z ∉ a.timestamp :: seen := by
            intro hmem2
            rcases List.mem_cons.mp hmem2 with h | h
            · exact hza h
            · exact hz h
          rcases ih (a.timestamp :: seen) hz2 ⟨c, hmem, hct⟩ with ⟨d, hd, hdt⟩
          exact ⟨d, List.mem_cons_of_mem _ hd, hdt⟩

theorem sanitize_candidates_pairwise_lt (cands : List Candidate) :
    (sanitize_candidates cands).Pairwise (fun a b => a.timestamp < b.timestamp) := by
  have hsort : (List.insertionSort candLe (force_first_to_zero cands)).Pairwise candLe :=
    List.sorted_insertionSort candLe _
  have hle : (sanitize_candidates cands).Pairwise candLe :=
    hsort.sublist (dedupe_first_sublist [] _)
  have hne := dedupe_first_pairwise_ne [] (List.insertionSort candLe (force_first_to_zero cands))
  exact (hle.and hne).imp (fun h => lt_of_le_of_ne h.1 h.2)

theorem sanitize_candidates_mem_ts (cands : List Candidate) (z : ℤ) :
    (∃ c ∈ sanitize_candidates cands, c.timestamp = z) ↔
      (∃ c ∈ force_first_to_zero cands, c.timestamp = z) := by
  constructor
  · rintro ⟨c, hc, hct⟩
    have hmem : c ∈ List.insertionSort candLe (force_first_to_zero cands) :=
      (dedupe_first_sublist [] _).subset hc
    exact ⟨c, (List.mem_insertionSort candLe).mp hmem, hct⟩
  · rintro ⟨c, hc, hct⟩
    apply dedupe_first_mem_ts [] _ z (by simp)
    exact ⟨c, (List.mem_insertionSort candLe).mpr hc, hct⟩

theorem sanitize_candidates_head_le_five (c : Candidate) (rest : List Candidate) :
    ∃ d l', sanitize_candidates (c :: rest) = d :: l' ∧ d.timestamp ≤ 5 := by
  have hc' : (if 5 < c.timestamp then { c with timestamp := 0 } else c).timestamp ≤ 5 := by
    by_cases h : 5 < c.timestamp
    · simp [h]
    · simp [h]
      exact le_of_not_lt h
  have hfl : force_first_to_zero (c :: rest) =
      (if 5 < c.timestamp then { c with timestamp := 0 } else c) :: rest := rfl
  have hlen : 0 < (List.insertionSort candLe (force_first_to_zero (c :: rest))).length := by
    rw [List.length_insertionSort, hfl]
    simp
  obtain ⟨d, l', hdl⟩ := List.exists_cons_of_ne_nil (List.length_pos.mp hlen)
  have hsorted := List.sorted_insertionSort candLe (force_first_to_zero (c :: rest))
  have hmemc' : (if 5 < c.timestamp then { c with timestamp := 0 } else c) ∈
      List.insertionSort candLe (force_first_to_zero (c :: rest)) := by
    rw [List.mem_insertionSort, hfl]
    exact List.mem_cons_self _ _
  have hdle : d.timestamp ≤ (if 5 < c.timestamp then { c with timestamp := 0 } else c).timestamp := by
    rw [hdl] at hmemc' hsorted
    rcases List.mem_cons.mp hmemc' with heq | hmem
    · rw [← heq]
    · exact List.rel_of_sorted_cons hsorted _ hmem
  refine ⟨d, dedupe_first [d.timestamp] l', ?_, hdle.trans hc'⟩
  unfold sanitize_candidates
  rw [hdl]
  simp [dedupe_first]

/-! ## Lemmas about content extraction -/

theorem extract_sections_length (video_duration : ℚ) (transcript_data : List Segment)
    (cs : List Candidate) :
    (extract_sections video_duration transcript_data cs).length = cs.length := by
  induction cs with
  | nil => rfl
  | cons c rest ih => simp [extract_sections, ih]

theorem extract_sections_map_timestamp (video_duration : ℚ) (transcript_data : List Segment)
    (cs : List Candidate) :
    (extract_sections video_duration transcript_data cs).map (fun s => s.timestamp) =
      cs.map (fun c => c.timestamp) := by
  induction cs with
  | nil => rfl
  | cons c rest ih => simp [extract_sections, ih]

theorem section_end_at_cons (s : PlanSection) (L : List PlanSection) (i : ℕ)
    (video_duration : ℚ) :
    section_end_at (s :: L) (i + 1) video_duration = section_end_at L i video_duration := by
  simp [section_end_at]

theorem extract_sections_content (video_duration : ℚ) (transcript_data : List Segment)
    (cs : List Candidate) :
    ∀ i < cs.length,
      ((extract_sections video_duration transcript_data cs).getD i dfltSec).content =
        String.intercalate " "
          ((transcript_data.filter (fun seg =>
            decide
              ((((extract_sections video_duration transcript_data cs).getD i dfltSec).timestamp :
                  ℚ) ≤ seg.start ∧
                seg.start <
                  section_end_at (extract_sections video_duration transcript_data cs) i
                    video_duration))).map
            (fun seg => seg.text)) := by
  induction cs with
  | nil => intro i hi; exact absurd hi (Nat.not_lt_zero i)
  | cons c rest ih =>
    intro i hi
    cases i with
    | zero =>
      cases rest with
      | nil => rfl
      | cons c2 rest2 => rfl
    | succ i =>
      have h2 := ih i (Nat.lt_of_succ_lt_succ hi)
      obtain ⟨s0, hs0⟩ : ∃ s0, extract_sections video_duration transcript_data (c :: rest) =
          s0 :: extract_sections video_duration transcript_data rest := ⟨_, rfl⟩
      rw [hs0, List.getD_cons_succ, section_end_at_cons]
      exact h2

theorem extract_sections_cover (video_duration : ℚ) (transcript_data : List Segment) :
    ∀ (rest : List Candidate) (c : Candidate) (t : ℚ),
      (c.timestamp : ℚ) ≤ t → t < video_duration →
      ∃ i < (c :: rest).length,
        (((extract_sections video_duration transcript_data (c :: rest)).getD i
            dfltSec).timestamp : ℚ) ≤ t ∧
        t < section_end_at (extract_sections video_duration transcript_data (c :: rest)) i
            video_duration := by
  intro rest
  induction rest with
  | nil =>
    intro c t hct htd
    refine ⟨0, by simp, hct, ?_⟩
    exact htd
  | cons c2 rest2 ih =>
    intro c t hct htd
    by_cases h2 : t < (c2.timestamp : ℚ)
    · exact ⟨0, by simp, hct, h2⟩
    · push_neg at h2
      obtain ⟨i, hi, h3, h4⟩ := ih c2 t h2 htd
      obtain ⟨s0, hs0⟩ : ∃ s0, extract_sections video_duration transcript_data (c :: c2 :: rest2) =
          s0 :: extract_sections video_duration transcript_data (c2 :: rest2) := ⟨_, rfl⟩
      refine ⟨i + 1, by simpa using hi, ?_, ?_⟩
      · rw [hs0, List.getD_cons_succ]
        exact h3
      · rw [hs0, section_end_at_cons]
        exact h4

theorem section_end_le_of_pairwise (L : List PlanSection) (video_duration : ℚ)
    (h : L.Pairwise (fun a b => a.timestamp < b.timestamp)) :
    ∀ i j, i < j → j < L.length →
      section_end_at L i video_duration ≤ ((L.getD j dfltSec).timestamp : ℚ) := by
  intro i j hij hj
  have hi1 : i + 1 < L.length := Nat.lt_of_le_of_lt (Nat.succ_le_of_lt hij) hj
  have hget : L.get? (i + 1) = some (L.get ⟨i + 1, hi1⟩) := List.get?_eq_get hi1
  have hend : section_end_at L i video_duration = ((L.get ⟨i + 1, hi1⟩).timestamp : ℚ) := by
    unfold section_end_at
    rw [hget]
  have hgetD : L.getD j dfltSec = L.get ⟨j, hj⟩ := by
    rw [List.getD_eq_getElem L dfltSec hj]
    exact (List.get_eq_getElem L ⟨j, hj⟩).symm
  rw [hend, hgetD]
  rcases Nat.eq_or_lt_of_le (Nat.succ_le_of_lt hij) with heq | hlt
  · subst heq
    exact le_refl _
  · exact_mod_cast le_of_lt (List.pairwise_iff_get.mp h ⟨i + 1, hi1⟩ ⟨j, hj⟩ hlt)

theorem finalize_sections_def (cands : List Candidate) (transcript_data : List Segment)
    (video_duration : ℚ) :
    finalize_sections cands transcript_data video_duration =
      extract_sections video_duration transcript_data (sanitize_candidates cands) := rfl

/-- C1 (amended): for every candidate list, the finalized sections have
strictly increasing start timestamps; each section's content is the
space-joined text of exactly the segments whose start lies in
`[start_timestamp, end)` where `end` is the next section's start timestamp
(`video_duration` for the last); consecutive sections are contiguous and
non-overlapping (each section's end is at most the start of every later
section, and every instant from the first section's start up to
`video_duration` is covered by some section); and for a non-empty candidate
list the first section starts within 5 seconds of 0 — but not necessarily at
0, so the sections tile `[first_start, video_duration)` rather than
`[0, video_duration)`. -/
theorem finalize_sections_tiling (cands : List Candidate) (transcript_data : List Segment)
    (video_duration : ℚ) :
    ((finalize_sections cands transcript_data video_duration).Pairwise
      (fun s1 s2 => s1.timestamp < s2.timestamp)) ∧
    (∀ i < (finalize_sections cands transcript_data video_duration).length,
      ((finalize_sections cands transcript_data video_duration).getD i dfltSec).content =
        String.intercalate " "
          ((transcript_data.filter (fun seg =>
            decide
              ((((finalize_sections cands transcript_data video_duration).getD i
                  dfltSec).timestamp : ℚ) ≤ seg.start ∧
                seg.start <
                  section_end_at (finalize_sections cands transcript_data video_duration) i
                    video_duration))).map (fun seg => seg.text))) ∧
    (∀ i j, i < j → j < (finalize_sections cands transcript_data video_duration).length →
      section_end_at (finalize_sections cands transcript_data video_duration) i video_duration ≤
        (((finalize_sections cands transcript_data video_duration).getD j
          dfltSec).timestamp : ℚ)) ∧
    (cands ≠ [] →
      finalize_sections cands transcript_data video_duration ≠ [] ∧
      ((finalize_sections cands transcript_data video_duration).getD 0 dfltSec).timestamp ≤ 5) ∧
    (∀ t : ℚ, finalize_sections cands transcript_data video_duration ≠ [] →
      (((finalize_sections cands transcript_data video_duration).getD 0 dfltSec).timestamp : ℚ) ≤
        t →
      t < video_duration →
      ∃ i < (finalize_sections cands transcript_data video_duration).length,
        (((finalize_sections cands transcript_data video_duration).getD i
          dfltSec).timestamp : ℚ) ≤ t ∧
        t < section_end_at (finalize_sections cands transcript_data video_duration) i
            video_duration) := by
  have hpair : (finalize_sections cands transcript_data video_duration).Pairwise
      (fun s1 s2 => s1.timestamp < s2.timestamp) := by
    have hcs := sanitize_candidates_pairwise_lt cands
    have h1 : ((sanitize_candidates cands).map (fun c => c.timestamp)).Pairwise (· < ·) :=
      List.pairwise_map.mpr hcs
    have h2 : ((finalize_sections cands transcript_data video_duration).map
        (fun s => s.timestamp)).Pairwise (· < ·) := by
      rw [finalize_sections_def, extract_sections_map_timestamp]
      exact h1
    exact List.pairwise_map.mp h2
  refine ⟨hpair, ?_, ?_, ?_, ?_⟩
  · intro i hi
    rw [finalize_sections_def] at hi ⊢
    exact extract_sections_content video_duration transcript_data (sanitize_candidates cands) i
      (by rw [← extract_sections_length video_duration transcript_data]; exact hi)
  · exact section_end_le_of_pairwise _ video_duration hpair
  · intro hne
    obtain ⟨c, rest, hc⟩ := List.exists_cons_of_ne_nil hne
    obtain ⟨d, l', hS, hd5⟩ := sanitize_candidates_head_le_five c rest
    constructor
    · rw [finalize_sections_def, hc, hS]
      simp [extract_sections]
    · rw [finalize_sections_def, hc, hS]
      exact hd5
  · intro t hne h0 htd
    have hslen : sanitize_candidates cands ≠ [] := by
      intro h
      apply hne
      rw [finalize_sections_def, h]
      rfl
    obtain ⟨c', rest', hS⟩ := List.exists_cons_of_ne_nil hslen
    have h0' : (c'.timestamp : ℚ) ≤ t := by
      rw [finalize_sections_def, hS] at h0
      exact h0
    have hcov := extract_sections_cover video_duration transcript_data rest' c' t h0' htd
    rw [finalize_sections_def, hS, extract_sections_length]
    exact hcov

/-- Witness for C1 at a concrete candidate list `[3, 40]` over three segments. -/
theorem finalize_sections_tiling_witness :
    ([⟨3, none⟩, ⟨40, none⟩] : List Candidate) ≠ [] ∧
    (finalize_sections [⟨3, none⟩, ⟨40, none⟩] [⟨"x", 1, 2⟩, ⟨"y", 10, 2⟩, ⟨"z", 45, 2⟩] 60 ≠ [] ∧
      ((finalize_sections [⟨3, none⟩, ⟨40, none⟩]
        [⟨"x", 1, 2⟩, ⟨"y", 10, 2⟩, ⟨"z", 45, 2⟩] 60).getD 0 dfltSec).timestamp ≤ 5) ∧
    (∃ i < (finalize_sections [⟨3, none⟩, ⟨40, none⟩]
        [⟨"x", 1, 2⟩, ⟨"y", 10, 2⟩, ⟨"z", 45, 2⟩] 60).length,
      (((finalize_sections [⟨3, none⟩, ⟨40, none⟩]
          [⟨"x", 1, 2⟩, ⟨"y", 10, 2⟩, ⟨"z", 45, 2⟩] 60).getD i dfltSec).timestamp : ℚ) ≤ 10 ∧
      (10 : ℚ) < section_end_at (finalize_sections [⟨3, none⟩, ⟨40, none⟩]
          [⟨"x", 1, 2⟩, ⟨"y", 10, 2⟩, ⟨"z", 45, 2⟩] 60) i 60) := by
  refine ⟨by with_unfolding_all decide, ?_, ?_⟩
  · exact (finalize_sections_tiling [⟨3, none⟩, ⟨40, none⟩]
      [⟨"x", 1, 2⟩, ⟨"y", 10, 2⟩, ⟨"z", 45, 2⟩] 60).2.2.2.1 (by with_unfolding_all decide)
  · exact (finalize_sections_tiling [⟨3, none⟩, ⟨40, none⟩]
      [⟨"x", 1, 2⟩, ⟨"y", 10, 2⟩, ⟨"z", 45, 2⟩] 60).2.2.2.2 10 (by with_unfolding_all decide)
      (by with_unfolding_all decide) (by with_unfolding_all decide)

/-- C1 counterexample: with resolved boundaries `[3, 40]` the first section
starts at 3, not 0 — so the sections do not cover `[0, video_duration)` and
the claim's "the first section starts at 0" is false. -/
theorem finalize_sections_first_not_zero :
    (finalize_sections [⟨3, none⟩, ⟨40, none⟩]
      [⟨"x", 1, 2⟩, ⟨"y", 10, 2⟩, ⟨"z", 45, 2⟩] 60).map (fun s => s.timestamp) = [3, 40] ∧
    ((finalize_sections [⟨3, none⟩, ⟨40, none⟩]
      [⟨"x", 1, 2⟩, ⟨"y", 10, 2⟩, ⟨"z", 45, 2⟩] 60).getD 0 dfltSec).timestamp ≠ 0 := by
  constructor
  · with_unfolding_all decide
  · with_unfolding_all decide

/-- C2 (amended): sanitation forces the first candidate's timestamp to 0
exactly when it is GREATER than 5 (a first timestamp ≤ 5 is left unchanged),
then sorts ascending and removes duplicate timestamps keeping the first
occurrence; the output timestamps are strictly increasing and are exactly the
timestamps of the zero-forced input; in particular `[12, 12, 47, 9]`
sanitizes to `[0, 9, 12, 47]` (12 > 5 is forced to 0) and `[3, 3, 40]`
sanitizes to `[3, 40]` (3 ≤ 5 is kept). -/
theorem sanitize_candidates_spec :
    (∀ cands : List Candidate,
      (sanitize_candidates cands).Pairwise (fun a b => a.timestamp < b.timestamp)) ∧
    (∀ (c : Candidate) (rest : List Candidate) (z : ℤ),
      (∃ d ∈ sanitize_candidates (c :: rest), d.timestamp = z) ↔
        (z = (if 5 < c.timestamp then 0 else c.timestamp) ∨ ∃ d ∈ rest, d.timestamp = z)) ∧
    ((sanitize_candidates [⟨12, none⟩, ⟨12, none⟩, ⟨47, none⟩, ⟨9, none⟩]).map
      (fun c => c.timestamp) = [0, 9, 12, 47]) ∧
    ((sanitize_candidates [⟨3, none⟩, ⟨3, none⟩, ⟨40, none⟩]).map
      (fun c => c.timestamp) = [3, 40]) := by
  refine ⟨sanitize_candidates_pairwise_lt, ?_, by with_unfolding_all decide,
    by with_unfolding_all decide⟩
  intro c rest z
  rw [sanitize_candidates_mem_ts]
  constructor
  · rintro ⟨d, hd, hdt⟩
    rcases List.mem_cons.mp hd with heq | hmem
    · left
      rw [heq] at hdt
      by_cases h5 : 5 < c.timestamp
      · rw [if_pos h5]
        rw [if_pos h5] at hdt
        exact hdt.symm
      · rw [if_neg h5]
        rw [if_neg h5] at hdt
        exact hdt.symm
    · exact Or.inr ⟨d, hmem, hdt⟩
  · rintro (rfl | ⟨d, hd, hdt⟩)
    · refine ⟨if 5 < c.timestamp then { c with timestamp := 0 } else c,
        List.mem_cons_self _ _, ?_⟩
      by_cases h5 : 5 < c.timestamp
      · rw [if_pos h5, if_pos h5]
      · rw [if_neg h5, if_neg h5]
    · exact ⟨d, List.mem_cons_of_mem _ hd, hdt⟩

/-- Witness for C2: timestamp 0 is present after sanitizing `[12, 12, 47, 9]`
because the first candidate (12 > 5) was forced to 0. -/
theorem sanitize_candidates_spec_witness :
    ∃ d ∈ sanitize_candidates [⟨12, none⟩, ⟨12, none⟩, ⟨47, none⟩, ⟨9, none⟩],
      d.timestamp = 0 := by
  apply (sanitize_candidates_spec.2.1 ⟨12, none⟩ [⟨12, none⟩, ⟨47, none⟩, ⟨9, none⟩] 0).mpr
  left
  with_unfolding_all decide

/-- C2 counterexample: the claim's own examples fail on the code — the
sanitized result of `[12, 12, 47, 9]` is `[0, 9, 12, 47]`, not `[9, 12, 47]`,
and of `[3, 3, 40]` is `[3, 40]`, not `[0, 40]` (the zero-forcing condition
in the code is `> 5`, the reverse of the claim's "within 5 seconds of 0"). -/
theorem sanitize_candidates_claim_counterexample :
    (sanitize_candidates [⟨12, none⟩, ⟨12, none⟩, ⟨47, none⟩, ⟨9, none⟩]).map
        (fun c => c.timestamp) ≠ [9, 12, 47] ∧
    (sanitize_candidates [⟨3, none⟩, ⟨3, none⟩, ⟨40, none⟩]).map
        (fun c => c.timestamp) ≠ [0, 40] := by
  constructor
  · with_unfolding_all decide
  · with_unfolding_all decide

/-- C3 (amended): the planner abandons the LLM-derived boundaries and returns
the even-split fallback exactly when fewer than 2 sections remain after
sanitation; there is no additional `target_count / 2` quality gate. -/
theorem plan_from_candidates_gate (cands : List Candidate) (transcript_data : List Segment)
    (video_duration : ℚ) (target_sections : ℕ) :
    ((finalize_sections cands transcript_data video_duration).length < 2 →
      plan_from_candidates cands transcript_data video_duration target_sections =
        create_logical_sections_fallback transcript_data target_sections) ∧
    (2 ≤ (finalize_sections cands transcript_data video_duration).length →
      plan_from_candidates cands transcript_data video_duration target_sections =
        finalize_sections cands transcript_data video_duration) := by
  constructor
  · intro h
    show (if (finalize_sections cands transcript_data video_duration).length < 2 then
        create_logical_sections_fallback transcript_data target_sections
      else finalize_sections cands transcript_data video_duration) = _
    rw [if_pos h]
  · intro h
    show (if (finalize_sections cands transcript_data video_duration).length < 2 then
        create_logical_sections_fallback transcript_data target_sections
      else finalize_sections cands transcript_data video_duration) = _
    rw [if_neg (not_lt_of_le h)]

/-- Witness for C3: a single surviving boundary triggers the fallback. -/
theorem plan_from_candidates_gate_witness :
    (finalize_sections [⟨7, none⟩] [⟨"hi", 0, 40⟩] 40).length < 2 ∧
    plan_from_candidates [⟨7, none⟩] [⟨"hi", 0, 40⟩] 40 8 =
      create_logical_sections_fallback [⟨"hi", 0, 40⟩] 8 :=
  ⟨by with_unfolding_all decide,
    (plan_from_candidates_gate [⟨7, none⟩] [⟨"hi", 0, 40⟩] 40 8).1
      (by with_unfolding_all decide)⟩

/-- C3 counterexample: two retained boundaries with `target_count = 8` — the
claim requires the even-split output (2 < 8/2), but the code keeps the two
LLM-derived sections, which differ from the 8-section fallback output. -/
theorem plan_from_candidates_no_half_gate :
    (finalize_sections [⟨0, none⟩, ⟨10, none⟩] [⟨"hi", 0, 40⟩] 40).length = 2 ∧
    plan_from_candidates [⟨0, none⟩, ⟨10, none⟩] [⟨"hi", 0, 40⟩] 40 8 ≠
      create_logical_sections_fallback [⟨"hi", 0, 40⟩] 8 := by
  constructor
  · with_unfolding_all decide
  · with_unfolding_all decide

/-! ## The even-split fallback planner -/

theorem getD_map_range {α : Type} (f : ℕ → α) (n i : ℕ) (hi : i < n) (d : α) :
    ((List.range n).map f).getD i d = f i := by
  rw [List.getD_eq_getElem _ _ (by simpa using hi)]
  simp

theorem fallback_getD (s0 : Segment) (rest : List Segment) (target_count i : ℕ)
    (hi : i < target_count) :
    (create_logical_sections_fallback (s0 :: rest) target_count).getD i dfltSec =
      { timestamp := pyInt (((s0 :: rest).getD (closest_idx (s0 :: rest)
          ((i : ℚ) * (total_duration_of (s0 :: rest) / (target_count : ℚ)))) segDflt).start)
        title := none
        content := fallback_section_content
          ((s0 :: rest).drop (closest_idx (s0 :: rest)
            ((i : ℚ) * (total_duration_of (s0 :: rest) / (target_count : ℚ)))))
          (((i : ℚ) + 1) * (total_duration_of (s0 :: rest) / (target_count : ℚ)))
          (decide (¬ i < target_count - 1)) } := by
  show (((List.range target_count).map (fun (k : ℕ) =>
      ({ timestamp := pyInt (((s0 :: rest).getD (closest_idx (s0 :: rest)
           ((k : ℚ) * (total_duration_of (s0 :: rest) / (target_count : ℚ)))) segDflt).start)
         title := none
         content := fallback_section_content
           ((s0 :: rest).drop (closest_idx (s0 :: rest)
             ((k : ℚ) * (total_duration_of (s0 :: rest) / (target_count : ℚ)))))
           (((k : ℚ) + 1) * (total_duration_of (s0 :: rest) / (target_count : ℚ)))
           (decide (¬ k < target_count - 1)) } : PlanSection))).getD i dfltSec) = _
  rw [getD_map_range _ target_count i hi]

/-- C6: for every non-empty segment list and `target_count ≥ 1`, the even-split
fallback produces exactly `target_count` sections; section `i` is anchored at
the truncated start of the segment whose start is closest to the interval
start `i * (total_duration / target_count)` — the earliest such segment on
ties — carries no title, and its content runs from the anchor segment up to
the next interval's target start (to the end of the transcript for the last
section).  With 4 segments at starts `[0, 10, 20, 30]`, duration 40 and
`target_count = 2`, the anchors resolve to `[0, 20]`. -/
theorem even_split_spec (transcript_data : List Segment) (target_count : ℕ)
    (hd : transcript_data ≠ []) (_ht : 0 < target_count) :
    (create_logical_sections_fallback transcript_data target_count).length = target_count ∧
    (∀ i < target_count,
      ∃ ci, ci < transcript_data.length ∧
        ci = closest_idx transcript_data
          ((i : ℚ) * (total_duration_of transcript_data / (target_count : ℚ))) ∧
        ((create_logical_sections_fallback transcript_data target_count).getD i
          dfltSec).timestamp = pyInt ((transcript_data.getD ci segDflt).start) ∧
        (∀ j < transcript_data.length,
          |(transcript_data.getD ci segDflt).start -
            (i : ℚ) * (total_duration_of transcript_data / (target_count : ℚ))| ≤
          |(transcript_data.getD j segDflt).start -
            (i : ℚ) * (total_duration_of transcript_data / (target_count : ℚ))|) ∧
        (∀ j < ci,
          |(transcript_data.getD ci segDflt).start -
            (i : ℚ) * (total_duration_of transcript_data / (target_count : ℚ))| <
          |(transcript_data.getD j segDflt).start -
            (i : ℚ) * (total_duration_of transcript_data / (target_count : ℚ))|) ∧
        ((create_logical_sections_fallback transcript_data target_count).getD i
          dfltSec).title = none ∧
        ((create_logical_sections_fallback transcript_data target_count).getD i
          dfltSec).content = fallback_section_content (transcript_data.drop ci)
            (((i : ℚ) + 1) * (total_duration_of transcript_data / (target_count : ℚ)))
            (decide (¬ i < target_count - 1))) ∧
    ((create_logical_sections_fallback
      [⟨"a", 0, 10⟩, ⟨"b", 10, 10⟩, ⟨"c", 20, 10⟩, ⟨"d", 30, 10⟩] 2).map
      (fun s => s.timestamp) = [0, 20]) := by
  obtain ⟨s0, rest, rfl⟩ := List.exists_cons_of_ne_nil hd
  have hn : 0 < (s0 :: rest).length := by simp
  refine ⟨?_, ?_, by with_unfolding_all decide⟩
  · simp [create_logical_sections_fallback]
  · intro i hi
    have hspec := closest_scan_range_spec
      (fun j => |((s0 :: rest).getD j segDflt).start -
        (i : ℚ) * (total_duration_of (s0 :: rest) / (target_count : ℚ))|)
      (s0 :: rest).length hn
    refine ⟨closest_idx (s0 :: rest)
        ((i : ℚ) * (total_duration_of (s0 :: rest) / (target_count : ℚ))),
      hspec.1, rfl, ?_, ?_, ?_, ?_, ?_⟩
    · rw [fallback_getD s0 rest target_count i hi]
    · intro j hj
      exact hspec.2.1.trans_le (hspec.2.2.1 j hj)
    · intro j hj
      exact hspec.2.1.trans_lt (hspec.2.2.2 j hj)
    · rw [fallback_getD s0 rest target_count i hi]
    · rw [fallback_getD s0 rest target_count i hi]

/-- Witness for C6 at the claim's 4-segment example. -/
theorem even_split_spec_witness :
    ([⟨"a", 0, 10⟩, ⟨"b", 10, 10⟩, ⟨"c", 20, 10⟩, ⟨"d", 30, 10⟩] : List Segment) ≠ [] ∧
    (0 : ℕ) < 2 ∧
    (create_logical_sections_fallback
      [⟨"a", 0, 10⟩, ⟨"b", 10, 10⟩, ⟨"c", 20, 10⟩, ⟨"d", 30, 10⟩] 2).length = 2 :=
  ⟨by with_unfolding_all decide, by decide,
    (even_split_spec [⟨"a", 0, 10⟩, ⟨"b", 10, 10⟩, ⟨"c", 20, 10⟩, ⟨"d", 30, 10⟩] 2
      (by with_unfolding_all decide) (by decide)).1⟩

/-- C10: the even-split fallback planner returns the empty list for an empty
segment list — the early return guards the division by `target_count` and the
access to the last segment, so planning on zero segments yields `[]` rather
than a failure. -/
theorem even_split_empty (target_count : ℕ) :
    create_logical_sections_fallback [] target_count = [] := rfl

/-! ## Quiz and question parsing -/

theorem pad_questions_length (fuel : ℕ) (qs : List String) (h : 3 ≤ qs.length + fuel) :
    3 ≤ (pad_questions fuel qs).length := by
  induction fuel generalizing qs with
  | zero => simpa using h
  | succ fuel ih =>
    rw [pad_questions]
    by_cases hlt : qs.length < 3
    · rw [if_pos hlt]
      apply ih
      simp only [List.length_append, List.length_singleton]
      omega
    · rw [if_neg hlt]
      omega

theorem generate_section_questions_length (response : Option String) :
    (generate_section_questions response).length = 3 := by
  cases response with
  | none => rfl
  | some raw =>
    have h := pad_questions_length 3 ((pySplit raw.trim "\n").filterMap (fun line =>
      let l := strip_quote_chars (strip_enum line.trim)
      if l ≠ "" ∧ 10 < l.length then some l else none)) (by omega)
    show ((pad_questions 3 ((pySplit raw.trim "\n").filterMap (fun line =>
      let l := strip_quote_chars (strip_enum line.trim)
      if l ≠ "" ∧ 10 < l.length then some l else none))).take 3).length = 3
    rw [List.length_take]
    omega

theorem generate_quiz_questions_length (response : Option String) (section_title : String) :
    (generate_quiz_questions response section_title).length = 3 := by
  cases response with
  | none => rfl
  | some raw =>
    show (if 3 ≤ ((pySplit raw.trim "---").filterMap (fun b =>
        let b := b.trim
        if b = "" then none else parse_quiz_block b)).length then
        ((pySplit raw.trim "---").filterMap (fun b =>
          let b := b.trim
          if b = "" then none else parse_quiz_block b)).take 3
      else List.replicate 3 (quiz_placeholder section_title)).length = 3
    by_cases h : 3 ≤ ((pySplit raw.trim "---").filterMap (fun b =>
        let b := b.trim
        if b = "" then none else parse_quiz_block b)).length
    · rw [if_pos h, List.length_take]
      omega
    · rw [if_neg h]
      rfl

theorem parse_quiz_block_accepts (block : String) (item : QuizItem)
    (h : parse_quiz_block block = some item) :
    item.options.length = 4 ∧ item.question ≠ "" := by
  simp only [parse_quiz_block] at h
  split at h
  · exact absurd h (by simp)
  · rename_i q hq
    split at h
    · rename_i hcond
      rw [Bool.and_eq_true, beq_iff_eq, bne_iff_ne] at hcond
      cases Option.some.inj h
      exact ⟨hcond.1, hcond.2⟩
    · exact absurd h (by simp)

/-- C7: quiz parsing accepts a block only when a nonempty question and exactly
4 lettered options were recovered; the overall result always has exactly 3
items, and whenever fewer than 3 valid blocks were recovered the entire result
is the deterministic placeholder item repeated 3 times — in particular a
response with 2 well-formed blocks and 1 block missing a lettered option
yields the 3-item placeholder result, never a 2-item list. -/
theorem quiz_parsing_contract :
    (∀ (response : Option String) (title : String),
      (generate_quiz_questions response title).length = 3) ∧
    (∀ (block : String) (item : QuizItem), parse_quiz_block block = some item →
      item.options.length = 4 ∧ item.question ≠ "") ∧
    (∀ (response title : String),
      ((pySplit response.trim "---").filterMap (fun b =>
        let b := b.trim
        if b = "" then none else parse_quiz_block b)).length < 3 →
      generate_quiz_questions (some response) title =
        List.replicate 3 (quiz_placeholder title)) ∧
    (generate_quiz_questions (some quiz_response_two_valid) "Heart" =
      List.replicate 3 (quiz_placeholder "Heart")) := by
  refine ⟨generate_quiz_questions_length, parse_quiz_block_accepts, ?_,
    by with_unfolding_all decide⟩
  intro response title h
  show (if 3 ≤ ((pySplit response.trim "---").filterMap (fun b =>
      let b := b.trim
      if b = "" then none else parse_quiz_block b)).length then
      ((pySplit response.trim "---").filterMap (fun b =>
        let b := b.trim
        if b = "" then none else parse_quiz_block b)).take 3
    else List.replicate 3 (quiz_placeholder title)) = _
  rw [if_neg (by omega)]

/-- Witness for C7 at the two-valid-one-malformed sample response. -/
theorem quiz_parsing_contract_witness :
    ((pySplit quiz_response_two_valid.trim "---").filterMap (fun b =>
      let b := b.trim
      if b = "" then none else parse_quiz_block b)).length < 3 ∧
    generate_quiz_questions (some quiz_response_two_valid) "Heart" =
      List.replicate 3 (quiz_placeholder "Heart") :=
  ⟨by with_unfolding_all decide,
    quiz_parsing_contract.2.2.1 quiz_response_two_valid "Heart" (by with_unfolding_all decide)⟩

/-- C8: every enrichment text-generation call degrades to a deterministic
fallback instead of propagating a failure: question generation returns the
fixed 3-question list when the call raised and always returns exactly 3
questions; quiz generation returns the fixed placeholder repeated 3 times when
the call raised and always returns exactly 3 items; and a per-section failure
yields the error placeholder div for that section index rather than aborting. -/
theorem enrichment_degrades_to_fallbacks :
    (generate_section_questions none =
      ["Can you explain the reasoning behind this?",
       "What's the fundamental difference here?",
       "Why is this approach used instead of alternatives?"]) ∧
    (∀ response : Option String, (generate_section_questions response).length = 3) ∧
    (∀ title : String,
      generate_quiz_questions none title = List.replicate 3 quiz_exception_placeholder) ∧
    (∀ (response : Option String) (title : String),
      (generate_quiz_questions response title).length = 3) ∧
    (∀ i : ℕ, generate_section_html_result none i = section_error_html i) :=
  ⟨rfl, generate_section_questions_length, fun _ => rfl, generate_quiz_questions_length,
    fun _ => rfl⟩

/-! ## The progressive stream -/

theorem current_section_trace_append (l1 l2 : List StreamEvent) :
    current_section_trace (l1 ++ l2) = current_section_trace l1 ++ current_section_trace l2 := by
  simp [current_section_trace]

/-- C9: an exception-free progressive run emits, in order, the initial
progress marker first, the section-count marker at position 4 (once planning
completed), then — starting at position 6 — exactly one generating marker per
section in index order (the marker for section `i` sits at position `6 + i`
and carries `currentSection = i + 1`), then the completion marker and finally
the result event carrying the assembled html, in which quiz generation was
enabled exactly for the first `FULL_QUIZ_SECTIONS = 4` sections; the
`currentSection` trace across the whole stream is `[1, …, total]`, strictly
increasing, so the generating index never regresses. -/
theorem stream_event_order (transcript_data : List Segment) (sections_data : List PlanSection)
    (loading_msgs : List String) (section_html : ℕ → Bool → String) :
    (generate_stream_events transcript_data sections_data loading_msgs section_html).head? =
      some (StreamEvent.progress "init" "Starting..." 0 none none) ∧
    (generate_stream_events transcript_data sections_data loading_msgs section_html)[4]? =
      some (StreamEvent.progress "sections"
        ("Found " ++ toString sections_data.length ++ " sections") 25 none
        (some sections_data.length)) ∧
    (∀ i < sections_data.length,
      (generate_stream_events transcript_data sections_data loading_msgs section_html)[6 + i]? =
        some (stream_generating_event sections_data sections_data.length i)) ∧
    (generate_stream_events transcript_data sections_data loading_msgs
        section_html)[6 + sections_data.length]? =
      some (StreamEvent.progress "complete" "Complete!" 100 none none) ∧
    (generate_stream_events transcript_data sections_data loading_msgs
        section_html)[7 + sections_data.length]? =
      some (StreamEvent.result
        (String.join ((List.range sections_data.length).map
          (fun i => section_html i (decide (i < FULL_QUIZ_SECTIONS)))))
        sections_data.length) ∧
    (generate_stream_events transcript_data sections_data loading_msgs section_html).length =
      8 + sections_data.length ∧
    current_section_trace
        (generate_stream_events transcript_data sections_data loading_msgs section_html) =
      (List.range sections_data.length).map (fun i => i + 1) ∧
    (current_section_trace
        (generate_stream_events transcript_data sections_data loading_msgs
          section_html)).Pairwise (· < ·) := by
  have htrace : current_section_trace
      (generate_stream_events transcript_data sections_data loading_msgs section_html) =
      (List.range sections_data.length).map (fun i => i + 1) := by
    unfold generate_stream_events
    rw [current_section_trace_append, current_section_trace_append]
    have hP : current_section_trace
        (stream_prefix_events transcript_data sections_data.length loading_msgs) = [] := rfl
    have hB : current_section_trace
        (stream_final_events section_html sections_data.length) = [] := rfl
    have hM : current_section_trace
        ((List.range sections_data.length).map
          (stream_generating_event sections_data sections_data.length)) =
        (List.range sections_data.length).map (fun i => i + 1) := by
      unfold current_section_trace
      rw [List.filterMap_map]
      show List.filterMap (some ∘ fun i => i + 1) (List.range sections_data.length) = _
      rw [List.filterMap_eq_map]
    rw [hP, hB, hM, List.nil_append, List.append_nil]
  have hlenPM : ((stream_prefix_events transcript_data sections_data.length loading_msgs)
      ++ (List.range sections_data.length).map
        (stream_generating_event sections_data sections_data.length)).length =
      6 + sections_data.length := by
    simp [stream_prefix_events]
    omega
  refine ⟨rfl, rfl, ?_, ?_, ?_, ?_, htrace, ?_⟩
  · intro i hi
    unfold generate_stream_events
    have h1 : 6 + i < ((stream_prefix_events transcript_data sections_data.length loading_msgs)
        ++ (List.range sections_data.length).map
          (stream_generating_event sections_data sections_data.length)).length := by
      rw [hlenPM]
      omega
    rw [List.getElem?_append_left h1, List.getElem?_append_right
      (by simp [stream_prefix_events] : (stream_prefix_events transcript_data
        sections_data.length loading_msgs).length ≤ 6 + i)]
    simp [stream_prefix_events, List.getElem?_map, List.getElem?_range, hi]
  · unfold generate_stream_events
    rw [List.getElem?_append_right (by rw [hlenPM]), hlenPM, Nat.sub_self]
    rfl
  · unfold generate_stream_events
    rw [List.getElem?_append_right (by rw [hlenPM]; omega), hlenPM,
      (by omega : 7 + sections_data.length - (6 + sections_data.length) = 1)]
    rfl
  · unfold generate_stream_events
    simp [stream_prefix_events, stream_final_events]
    omega
  · rw [htrace]
    exact (List.pairwise_lt_range sections_data.length).map _
      (fun a b hab => Nat.succ_lt_succ hab)

/-- Witness for C9: with two planned sections, the generating marker for
section 0 sits at stream position 6 and announces `currentSection = 1`. -/
theorem stream_event_order_witness :
    (0 : ℕ) < ([⟨0, some "T0", "c0"⟩, ⟨9, some "T1", "c1"⟩] : List PlanSection).length ∧
    (generate_stream_events [] [⟨0, some "T0", "c0"⟩, ⟨9, some "T1", "c1"⟩] []
        (fun _ _ => "h"))[6 + 0]? =
      some (stream_generating_event [⟨0, some "T0", "c0"⟩, ⟨9, some "T1", "c1"⟩] 2 0) :=
  ⟨by decide,
    (stream_event_order [] [⟨0, some "T0", "c0"⟩, ⟨9, some "T1", "c1"⟩] []
      (fun _ _ => "h")).2.2.1 0 (by decide)⟩

example : pyInt (7/2 : ℚ) = 3 := by with_unfolding_all decide
example : pyInt (-7/2 : ℚ) = -3 := by with_unfolding_all decide
example : create_logical_sections_fallback [] 4 = [] := rfl
example :
    (create_logical_sections_fallback
      [⟨"a", 0, 10⟩, ⟨"b", 10, 10⟩, ⟨"c", 20, 10⟩, ⟨"d", 30, 10⟩] 2).map
      (fun s => s.timestamp) = [0, 20] := by with_unfolding_all decide
example :
    (create_logical_sections_fallback
      [⟨"a", 0, 10⟩, ⟨"b", 10, 10⟩, ⟨"c", 20, 10⟩, ⟨"d", 30, 10⟩] 2).map
      (fun s => s.content) = ["a b ", "c d "] := by with_unfolding_all decide
example :
    (sanitize_candidates [⟨12, none⟩, ⟨12, none⟩, ⟨47, none⟩, ⟨9, none⟩]).map
      (fun c => c.timestamp) = [0, 9, 12, 47] := by with_unfolding_all decide
example :
    (sanitize_candidates [⟨3, none⟩, ⟨3, none⟩, ⟨40, none⟩]).map
      (fun c => c.timestamp) = [3, 40] := by with_unfolding_all decide
example : locate_best "go on" [⟨"go on", 0, 1⟩] = (0, 0) := by with_unfolding_all decide
example :
    listHasInfix (lower_strip "go on").toList (window_text [⟨"go on", 0, 1⟩] 0).toList = true := by
  with_unfolding_all decide
example :
    (resolve_boundary "go on" [⟨"go on", 0, 1⟩] 0 2 10).source = BoundarySource.FALLBACK := by
  with_unfolding_all decide
example :
    (resolve_boundary "the core idea here" [⟨"we explain The core", 0, 2⟩, ⟨"idea here now", 2, 2⟩]
      0 2 10) =
    { timestamp := 0, confidence := 1, source := BoundarySource.MATCHED } := by
  with_unfolding_all decide
example :
    (finalize_sections [⟨3, none⟩, ⟨40, none⟩] [⟨"x", 1, 2⟩, ⟨"y", 10, 2⟩, ⟨"z", 45, 2⟩] 60).map
      (fun s => (s.timestamp, s.content)) = [(3, "y"), (40, "z")] := by
  with_unfolding_all decide
example :
    parse_quiz_block "Q: What is X?\nA) one\nB) two\nC) three\nD) four\nCORRECT: B\nEXPLANATION: why" =
    some { question := "What is X?"
           options := [('A', "one"), ('B', "two"), ('C', "three"), ('D', "four")]
           correct := 'B'
           explanation := "why" } := by with_unfolding_all decide
example :
    parse_quiz_block "Q: What about Z?\nA) p\nB) q\nC) r\nCORRECT: B\nEXPLANATION: s" = none := by
  with_unfolding_all decide
example :
    generate_quiz_questions
      (some ("Q: Ask one?\nA) a1\nB) b1\nC) c1\nD) d1\nCORRECT: A\nEXPLANATION: e1\n---\n" ++
             "Q: Ask two?\nA) a2\nB) b2\nC) c2\nD) d2\nCORRECT: C\nEXPLANATION: e2\n---\n" ++
             "Q: Ask three?\nA) a3\nB) b3\nC) c3\nCORRECT: B\nEXPLANATION: e3"))
      "Heart" = List.replicate 3 (quiz_placeholder "Heart") := by with_unfolding_all decide
example :
    (generate_quiz_questions
      (some ("Q: Ask one?\nA) a1\nB) b1\nC) c1\nD) d1\nCORRECT: A\nEXPLANATION: e1\n---\n" ++
             "Q: Ask two?\nA) a2\nB) b2\nC) c2\nD) d2\nCORRECT: C\nEXPLANATION: e2\n---\n" ++
             "Q: Ask three?\nA) a3\nB) b3\nC) c3\nD) d3\nCORRECT: B\nEXPLANATION: e3"))
      "Heart").map (fun q => q.question) = ["Ask one?", "Ask two?", "Ask three?"] := by
  with_unfolding_all decide
example :
    generate_section_questions (some "1. What is the mechanism of action?\nok\n2) \"Why does the gradient matter here?\"") =
    ["What is the mechanism of action?", "Why does the gradient matter here?",
     "What's the key difference between the approaches mentioned?"] := by
  with_unfolding_all decide
